import Mathlib

/-!
Verification of the telemetry ingestion pipeline of `push_to_dash.py`
(CubeSat-SIM ground-station telemetry API server).

The development shallowly embeds the pure core of the program:

* the tokenizer and the per-line parser `parse_telem_line`;
* the per-cycle body of the background thread `telemetry_reader`
  (file-existence / staleness classification, backward line selection,
  per-field-group merge into the global snapshot `latest_telemetry`);
* the lock-granularity of the updates, as a list of atomic writes, to reason
  about what a concurrent reader (the HTTP handler `do_GET`, which copies the
  snapshot under the lock) can observe between the writes of one cycle;
* the Gist relay rate limiter (`last_gist_push` / `GIST_PUSH_INTERVAL`).

Numeric values are modelled as rationals.  Exceptions that the source catches
(`IndexError`, `ValueError`) are modelled by `Option`: a failed extraction
yields `none`, which the source's `except ... pass` turns into "field absent".
-/

section TelemetryPipeline

/- Rational arithmetic must evaluate for the concrete test cases below;
locally restore the default reducibility of the basic `Rat` operations. -/
attribute [local semireducible] Rat.ofScientific Rat.mul Rat.inv Rat.add Rat.sub

/-- Separator class of the tokenizer: Python `re.split(r'[\s,]+', ...)`
splits on runs of whitespace or commas. -/
def isSep (c : Char) : Bool := c.isWhitespace || c == ','

/-- Characters stripped by Python `str.strip()` (whitespace only). -/
def isStripped (c : Char) : Bool := c.isWhitespace

/-- Python `line.strip()` on the character list. -/
def stripChars (l : List Char) : List Char :=
  ((l.dropWhile isStripped).reverse.dropWhile isStripped).reverse

/-- Python `line.strip()`. -/
def pyStrip (s : String) : String := ⟨stripChars s.data⟩

mutual
/-- `re.split(r'[\s,]+', s)`: accumulate the current token, flush it at a
separator run.  A trailing separator run produces a final empty piece, as in
Python. -/
def splitRun : List Char → List Char → List (List Char)
  | [], acc => [acc.reverse]
  | c :: cs, acc =>
    if isSep c then acc.reverse :: splitRunSkip cs
    else splitRun cs (c :: acc)

/-- Skip the rest of a separator run, then continue tokenizing. -/
def splitRunSkip : List Char → List (List Char)
  | [] => [[]]
  | c :: cs => if isSep c then splitRunSkip cs else splitRun cs [c]
end

/-- `re.split(r'[\s,]+', s.strip())` as used by `parse_telem_line`. -/
def pySplit (s : String) : List String :=
  (splitRun (stripChars s.data) []).map fun l => ⟨l⟩

/-- Substring test on character lists (Python `needle in haystack`). -/
def containsSub (needle : List Char) : List Char → Bool
  | [] => needle.isEmpty
  | c :: t => List.isPrefixOf needle (c :: t) || containsSub needle t

/-- Python `pat in s` (substring containment). -/
def strContains (s pat : String) : Bool := containsSub pat.data s.data

/-- Value of a digit string. -/
def digitsVal (l : List Char) : Nat :=
  l.foldl (fun a c => a * 10 + (c.toNat - 48)) 0

/-- Model of Python's `float(token)` on the tokens this pipeline sees:
an optional sign followed by a plain decimal numeral (`12`, `4.50`, `.5`,
`7.`).  Exotic float syntax (exponents, `inf`, `nan`) does not occur in the
telemetry format and is modelled as a parse failure.  `none` models the
`ValueError` that the source catches. -/
def pyFloat? (s : String) : Option ℚ :=
  let cs := s.data
  let signed : ℚ × List Char :=
    match cs with
    | '-' :: r => (-1, r)
    | '+' :: r => (1, r)
    | r => (1, r)
  let intPart := signed.2.takeWhile Char.isDigit
  let rest := signed.2.dropWhile Char.isDigit
  match rest with
  | [] => if intPart.isEmpty then none else some (signed.1 * digitsVal intPart)
  | '.' :: frac =>
    if frac.all Char.isDigit && !(intPart.isEmpty && frac.isEmpty) then
      some (signed.1 * ((digitsVal intPart : ℚ) +
        (digitsVal frac : ℚ) / (10 : ℚ) ^ frac.length))
    else none
  | _ => none

/-- The `ms5611` field group (pressure sensor). -/
structure MS5611 where
  temp : ℚ
  pressure : ℚ
  altitude : ℚ
deriving DecidableEq, Repr

/-- The `mpu6050` field group (IMU). -/
structure MPU6050 where
  gx : ℚ
  gy : ℚ
  gz : ℚ
  ax : ℚ
  ay : ℚ
  az : ℚ
deriving DecidableEq, Repr

/-- The sparse per-line result dict of `parse_telem_line`; `none` means the
key is absent from the returned dict. -/
structure ParsedData where
  tmp : Option ℚ
  gps : Option (ℚ × ℚ × ℚ)
  ms5611 : Option MS5611
  mpu6050 : Option MPU6050
deriving DecidableEq, Repr

/-- `_idx_token(parts, token)`: index of the first part equal to `token` or
starting with `token` (e.g. `MS5611` or `MS5611>`); `none` models `-1`. -/
def idx_token (parts : List String) (token : String) : Option Nat :=
  parts.findIdx? fun p => p == token || List.isPrefixOf token.data p.data

/-- The `TMP` block of `parse_telem_line`: exact token membership, first
occurrence, one following token parsed as float. -/
def parseTMP (parts : List String) : Option ℚ :=
  if "TMP" ∈ parts then
    let idx := parts.indexOf "TMP"
    if idx + 1 < parts.length then parts.get? (idx + 1) >>= pyFloat?
    else none
  else none

/-- The `GPS` block of `parse_telem_line`.  The source guard is
`idx + 3 <= len(parts)`; indexing `parts[idx+3]` can still raise `IndexError`
(modelled by `List.get?` returning `none`), which the source catches. -/
def parseGPS (parts : List String) : Option (ℚ × ℚ × ℚ) :=
  if "GPS" ∈ parts then
    let idx := parts.indexOf "GPS"
    if idx + 3 ≤ parts.length then
      match parts.get? (idx + 1) >>= pyFloat?, parts.get? (idx + 2) >>= pyFloat?,
            parts.get? (idx + 3) >>= pyFloat? with
      | some a, some b, some c => some (a, b, c)
      | _, _, _ => none
    else none
  else none

/-- The `MS5611` block of `parse_telem_line`.  With `idx + 3 <= len(parts)`
the three following tokens are parsed (an `IndexError`/`ValueError` omits the
field); otherwise the substitution policy builds the reading from the line's
own already-parsed `TMP` and `GPS` values, with `pressure = 1013.25`. -/
def parseMS5611 (parts : List String) (tmp : Option ℚ) (gps : Option (ℚ × ℚ × ℚ)) :
    Option MS5611 :=
  match idx_token parts "MS5611" with
  | none => none
  | some idx =>
    if idx + 3 ≤ parts.length then
      match parts.get? (idx + 1) >>= pyFloat?, parts.get? (idx + 2) >>= pyFloat?,
            parts.get? (idx + 3) >>= pyFloat? with
      | some a, some b, some c => some ⟨a, b, c⟩
      | _, _, _ => none
    else
      some ⟨tmp.getD 0, 1013.25, (gps.getD (0, 0, 0)).2.2⟩

/-- The `MPU6050` block of `parse_telem_line`: six following tokens. -/
def parseMPU6050 (parts : List String) : Option MPU6050 :=
  if "MPU6050" ∈ parts then
    let idx := parts.indexOf "MPU6050"
    if idx + 6 ≤ parts.length then
      match parts.get? (idx + 1) >>= pyFloat?, parts.get? (idx + 2) >>= pyFloat?,
            parts.get? (idx + 3) >>= pyFloat?, parts.get? (idx + 4) >>= pyFloat?,
            parts.get? (idx + 5) >>= pyFloat?, parts.get? (idx + 6) >>= pyFloat? with
      | some a, some b, some c, some d, some e, some f => some ⟨a, b, c, d, e, f⟩
      | _, _, _, _, _, _ => none
    else none
  else none

/-- `parse_telem_line(line)`: tokenize the stripped line and run the four
field-group extractors.  The `MS5611` extractor sees the `tmp` and `gps`
values already placed in the local `data` dict, exactly as in the source. -/
def parse_telem_line (line : String) : ParsedData :=
  let parts := pySplit line
  let tmp := parseTMP parts
  let gps := parseGPS parts
  let ms := parseMS5611 parts tmp gps
  let mpu := parseMPU6050 parts
  ⟨tmp, gps, ms, mpu⟩

example : pySplit " TMP 7,  8 " = ["TMP", "7", "8"] := by decide
example : pyFloat? "4.50" = some (9 / 2) := by decide
example : (parse_telem_line "BAT 4.50 0.0 MPU6050 1 2 3 4 5 6 GPS 10 20 300 TMP 25.5 MS5611>").ms5611
    = some ⟨25.5, 1013.25, 300⟩ := by decide

/-- The `status` field of `latest_telemetry`. -/
inductive Status where
  | offline
  | live
  | stale
  | no_file
deriving DecidableEq, Repr

/-- The global snapshot `latest_telemetry`.  The ISO timestamp string is
modelled by the (rational) instant it renders; `none` is the initial `None`. -/
structure Telemetry where
  status : Status
  timestamp : Option ℚ
  ms5611 : MS5611
  mpu6050 : MPU6050
  tmp : ℚ
  system : ℚ × ℚ
deriving DecidableEq, Repr

/-- The initial value of `latest_telemetry`. -/
def initTelemetry : Telemetry :=
  { status := Status.offline
    timestamp := none
    ms5611 := ⟨0, 0, 0⟩
    mpu6050 := ⟨0, 0, 0, 0, 0, 0⟩
    tmp := 0
    system := (0, 0) }

/-- `STALE_TIMEOUT = 120` seconds. -/
def STALE_TIMEOUT : ℚ := 120

/-- Everything one iteration of `telemetry_reader` samples from the outside
world: host metrics, existence and modification-time age of the telemetry
file, its lines, and the current wall-clock instant. -/
structure Env where
  cpu : ℚ
  gpuTemp : ℚ
  fileExists : Bool
  fileAge : ℚ
  lines : List String
  now : ℚ
deriving DecidableEq, Repr

/-- The backward selection loop of `telemetry_reader`: walk the (already
reversed) line list, keep for each of the three markers the first stripped
line that contains it as a substring, and break once all three are set.
The empty string is the "not found yet" sentinel, as in the source. -/
def selectLines : List String → String → String → String → String × String × String
  | [], m5, mpu, tm => (m5, mpu, tm)
  | line :: rest, m5, mpu, tm =>
    let stripped := pyStrip line
    if stripped = "" then selectLines rest m5 mpu tm
    else
      let m5 := if strContains stripped "MS5611" ∧ m5 = "" then stripped else m5
      let mpu := if strContains stripped "MPU6050" ∧ mpu = "" then stripped else mpu
      let tm := if strContains stripped "TMP" ∧ tm = "" then stripped else tm
      if m5 ≠ "" ∧ mpu ≠ "" ∧ tm ≠ "" then (m5, mpu, tm)
      else selectLines rest m5 mpu tm

/-- One iteration of the `while True` body of `telemetry_reader`, without the
relay/local-mirror publication (modelled separately): write host metrics,
classify `no_file` / `stale` / `live`, and in the live case select the three
most recent marker lines and merge each parsed field group. -/
def cycle (env : Env) (t0 : Telemetry) : Telemetry :=
  let t := { t0 with system := (env.cpu, env.gpuTemp) }
  if env.fileExists then
    if env.fileAge > STALE_TIMEOUT then
      { t with status := Status.stale, timestamp := some env.now }
    else
      let sel := selectLines env.lines.reverse "" "" ""
      let t := { t with status := Status.live, timestamp := some env.now }
      let t := if sel.1 ≠ "" then
          match (parse_telem_line sel.1).ms5611 with
          | some m => { t with ms5611 := m }
          | none => t
        else t
      let t := if sel.2.1 ≠ "" then
          match (parse_telem_line sel.2.1).mpu6050 with
          | some m => { t with mpu6050 := m }
          | none => t
        else t
      if sel.2.2 ≠ "" then
        match (parse_telem_line sel.2.2).tmp with
        | some v => { t with tmp := v }
        | none => t
      else t
  else
    { t with status := Status.no_file, timestamp := some env.now }

/-- One atomic `with lock:` write of `telemetry_reader`.  `status` and
`timestamp` are always written inside the same critical section, hence a
single atom carries both. -/
inductive Atom where
  | sys (cpu gpu : ℚ)
  | stamp (s : Status) (ts : ℚ)
  | ms (m : MS5611)
  | mpu (m : MPU6050)
  | tmpv (v : ℚ)
deriving DecidableEq, Repr

/-- Effect of one atomic write on the snapshot. -/
def Atom.apply : Atom → Telemetry → Telemetry
  | .sys c g, t => { t with system := (c, g) }
  | .stamp s ts, t => { t with status := s, timestamp := some ts }
  | .ms m, t => { t with ms5611 := m }
  | .mpu m, t => { t with mpu6050 := m }
  | .tmpv v, t => { t with tmp := v }

/-- The sequence of lock-protected writes one `telemetry_reader` iteration
performs, in program order.  Parsing happens outside the lock, so the atoms
are fully determined by the sampled environment. -/
def cycleAtoms (env : Env) : List Atom :=
  Atom.sys env.cpu env.gpuTemp ::
  (if env.fileExists then
    if env.fileAge > STALE_TIMEOUT then
      [Atom.stamp Status.stale env.now]
    else
      let sel := selectLines env.lines.reverse "" "" ""
      Atom.stamp Status.live env.now ::
      ((if sel.1 ≠ "" then
          match (parse_telem_line sel.1).ms5611 with
          | some m => [Atom.ms m]
          | none => []
        else []) ++
       (if sel.2.1 ≠ "" then
          match (parse_telem_line sel.2.1).mpu6050 with
          | some m => [Atom.mpu m]
          | none => []
        else []) ++
       (if sel.2.2 ≠ "" then
          match (parse_telem_line sel.2.2).tmp with
          | some v => [Atom.tmpv v]
          | none => []
        else []))
  else
    [Atom.stamp Status.no_file env.now])

/-- Run a list of atomic writes. -/
def applyAtoms (ws : List Atom) (t : Telemetry) : Telemetry :=
  ws.foldl (fun a w => w.apply a) t

/-- What a concurrent reader copying the snapshot under the lock observes
after the first `k` atomic writes of a cycle have been performed. -/
def observeAfter (env : Env) (t0 : Telemetry) (k : Nat) : Telemetry :=
  applyAtoms ((cycleAtoms env).take k) t0

/-- `GIST_PUSH_INTERVAL = 5` seconds. -/
def GIST_PUSH_INTERVAL : ℚ := 5

/-- The relay guard at the end of each reader iteration:
`if GITHUB_TOKEN and (now - last_gist_push) >= GIST_PUSH_INTERVAL`.
Returns whether `push_to_gist` is invoked and the new `last_gist_push`. -/
def gistStep (tokenPresent : Bool) (lastPush now : ℚ) : Bool × ℚ :=
  if tokenPresent then
    if GIST_PUSH_INTERVAL ≤ now - lastPush then (true, now)
    else (false, lastPush)
  else (false, lastPush)

/-- Iterate the relay guard over the wall-clock instants of successive
cycles, recording for each cycle whether a network push happened. -/
def gistRun (tokenPresent : Bool) : List ℚ → ℚ → List Bool
  | [], _ => []
  | n :: ns, lastPush =>
    let r := gistStep tokenPresent lastPush n
    r.1 :: gistRun tokenPresent ns r.2

/-- Merge of the pressure field group performed by the live branch: overwrite
only when an `ms5611`-selected line exists and yields the field. -/
def mergedMs (env : Env) (old : MS5611) : MS5611 :=
  let sel := selectLines env.lines.reverse "" "" ""
  if sel.1 ≠ "" then
    match (parse_telem_line sel.1).ms5611 with
    | some m => m
    | none => old
  else old

/-- Merge of the IMU field group performed by the live branch. -/
def mergedMpu (env : Env) (old : MPU6050) : MPU6050 :=
  let sel := selectLines env.lines.reverse "" "" ""
  if sel.2.1 ≠ "" then
    match (parse_telem_line sel.2.1).mpu6050 with
    | some m => m
    | none => old
  else old

/-- Merge of the ambient-temperature field performed by the live branch. -/
def mergedTmp (env : Env) (old : ℚ) : ℚ :=
  let sel := selectLines env.lines.reverse "" "" ""
  if sel.2.2 ≠ "" then
    match (parse_telem_line sel.2.2).tmp with
    | some v => v
    | none => old
  else old

theorem cycle_nofile (env : Env) (t : Telemetry) (hex : env.fileExists = false) :
    cycle env t =
      { status := Status.no_file, timestamp := some env.now,
        ms5611 := t.ms5611, mpu6050 := t.mpu6050, tmp := t.tmp,
        system := (env.cpu, env.gpuTemp) } := by
  unfold cycle
  rw [hex]
  simp

theorem cycle_stale (env : Env) (t : Telemetry) (hex : env.fileExists = true)
    (hage : env.fileAge > STALE_TIMEOUT) :
    cycle env t =
      { status := Status.stale, timestamp := some env.now,
        ms5611 := t.ms5611, mpu6050 := t.mpu6050, tmp := t.tmp,
        system := (env.cpu, env.gpuTemp) } := by
  unfold cycle
  rw [hex]
  simp [hage]

theorem cycle_live (env : Env) (t : Telemetry) (hex : env.fileExists = true)
    (hage : ¬ env.fileAge > STALE_TIMEOUT) :
    cycle env t =
      { status := Status.live, timestamp := some env.now,
        ms5611 := mergedMs env t.ms5611, mpu6050 := mergedMpu env t.mpu6050,
        tmp := mergedTmp env t.tmp, system := (env.cpu, env.gpuTemp) } := by
  unfold cycle mergedMs mergedMpu mergedTmp
  rw [hex]
  simp only [if_true, hage, if_false, Bool.true_eq_false]
  rcases hms : (parse_telem_line (selectLines env.lines.reverse "" "" "").1).ms5611 with _ | m <;>
    rcases hmp : (parse_telem_line (selectLines env.lines.reverse "" "" "").2.1).mpu6050 with _ | p <;>
    rcases htm : (parse_telem_line (selectLines env.lines.reverse "" "" "").2.2).tmp with _ | v <;>
    split_ifs <;>
    simp_all

/-- Modelled from the spec: "the most recent line containing each marker".
On the already-reversed line list this is the first stripped line containing
the marker as a substring; the empty string signals "no such line", matching
the sentinel of the loop. -/
def specMostRecent (marker : String) (revLines : List String) : String :=
  match revLines.find? (fun l => strContains (pyStrip l) marker) with
  | some l => pyStrip l
  | none => ""

theorem specMostRecent_cons (marker l : String) (rest : List String) :
    specMostRecent marker (l :: rest) =
      if strContains (pyStrip l) marker then pyStrip l
      else specMostRecent marker rest := by
  cases h : strContains (pyStrip l) marker <;>
    simp [specMostRecent, List.find?, h]

set_option maxHeartbeats 2000000 in
/-- The selection loop keeps, independently for each marker, the first
stripped line of the scan order that contains it — regardless of the early
`break`, which only fires once all three are already fixed. -/
theorem selectLines_eq (rl : List String) : ∀ a b c,
    selectLines rl a b c =
      (if a = "" then specMostRecent "MS5611" rl else a,
       if b = "" then specMostRecent "MPU6050" rl else b,
       if c = "" then specMostRecent "TMP" rl else c) := by
  induction rl with
  | nil =>
    intro a b c
    simp only [selectLines, specMostRecent, List.find?]
    split_ifs <;> simp_all
  | cons l rest ih =>
    intro a b c
    by_cases hs : pyStrip l = ""
    · have d1 : strContains "" "MS5611" = false := by decide
      have d2 : strContains "" "MPU6050" = false := by decide
      have d3 : strContains "" "TMP" = false := by decide
      simp [selectLines, hs, specMostRecent_cons, d1, d2, d3, ih]
    · cases h1 : strContains (pyStrip l) "MS5611" <;>
        cases h2 : strContains (pyStrip l) "MPU6050" <;>
        cases h3 : strContains (pyStrip l) "TMP" <;>
        by_cases ha : a = "" <;> by_cases hb : b = "" <;> by_cases hc : c = "" <;>
        simp_all [selectLines, specMostRecent_cons, ih]

/-- Running all atomic writes of a cycle in order is the sequential cycle. -/
theorem cycle_eq_atoms (env : Env) (t : Telemetry) :
    applyAtoms (cycleAtoms env) t = cycle env t := by
  unfold cycle cycleAtoms
  by_cases hex : env.fileExists
  · by_cases hage : env.fileAge > STALE_TIMEOUT
    · simp [hex, hage, applyAtoms, Atom.apply]
    · simp only [hex, if_true, hage, if_false]
      rcases hms : (parse_telem_line (selectLines env.lines.reverse "" "" "").1).ms5611 with _ | m <;>
        rcases hmp : (parse_telem_line (selectLines env.lines.reverse "" "" "").2.1).mpu6050 with _ | p <;>
        rcases htm : (parse_telem_line (selectLines env.lines.reverse "" "" "").2.2).tmp with _ | v <;>
        split_ifs <;>
        simp_all [applyAtoms, Atom.apply]
  · simp [hex, applyAtoms, Atom.apply]

def Atom.isMs : Atom → Bool
  | .ms _ => true
  | _ => false

def Atom.isMpu : Atom → Bool
  | .mpu _ => true
  | _ => false

def Atom.isTmp : Atom → Bool
  | .tmpv _ => true
  | _ => false

def Atom.isSys : Atom → Bool
  | .sys _ _ => true
  | _ => false

def Atom.isStamp : Atom → Bool
  | .stamp _ _ => true
  | _ => false

/-- A projection untouched by every atom of a run is unchanged by the run. -/
theorem applyAtoms_proj {α : Type} (π : Telemetry → α) (touches : Atom → Bool)
    (hpres : ∀ w t, touches w = false → π (w.apply t) = π t) :
    ∀ (ws : List Atom), (∀ w ∈ ws, touches w = false) → ∀ t, π (applyAtoms ws t) = π t := by
  intro ws
  induction ws with
  | nil => intro _ t; rfl
  | cons w ws ih =>
    intro h t
    have hrest := ih (fun x hx => h x (List.mem_cons_of_mem _ hx)) (w.apply t)
    calc π (applyAtoms (w :: ws) t) = π (applyAtoms ws (w.apply t)) := by
          simp [applyAtoms]
      _ = π (w.apply t) := hrest
      _ = π t := hpres w t (h w (List.mem_cons_self w ws))

/-- If at most one atom of a run touches a projection, then after any prefix
of the run the projection shows either its initial or its final value. -/
theorem observe_proj {α : Type} (π : Telemetry → α) (touches : Atom → Bool)
    (hpres : ∀ w t, touches w = false → π (w.apply t) = π t) :
    ∀ (ws : List Atom), ws.countP (fun w => touches w) ≤ 1 → ∀ t0 k,
      π (applyAtoms (ws.take k) t0) = π t0 ∨
      π (applyAtoms (ws.take k) t0) = π (applyAtoms ws t0) := by
  intro ws
  induction ws with
  | nil => intro _ t0 k; left; simp [applyAtoms]
  | cons w ws ih =>
    intro hcnt t0 k
    have hcons := List.countP_cons (fun w => touches w) w ws
    cases k with
    | zero => left; simp [applyAtoms]
    | succ k =>
      have hstep : applyAtoms ((w :: ws).take (k + 1)) t0 =
          applyAtoms (ws.take k) (w.apply t0) := by
        simp [applyAtoms]
      have hfull : applyAtoms (w :: ws) t0 = applyAtoms ws (w.apply t0) := by
        simp [applyAtoms]
      have hcnt' : ws.countP (fun w => touches w) ≤ 1 := by
        rw [hcons] at hcnt
        omega
      rcases ih hcnt' (w.apply t0) k with h | h
      · cases hw : touches w
        · left
          rw [hstep, h, hpres w t0 hw]
        · right
          have h0 : ws.countP (fun w => touches w) = 0 := by
            have h1 : ((w :: ws).countP fun w => touches w) =
                (ws.countP fun w => touches w) + 1 := by
              simp [List.countP_cons, hw]
            rw [h1] at hcnt
            omega
          have hall : ∀ x ∈ ws, touches x = false := by
            intro x hx
            have := List.countP_eq_zero.mp h0 x hx
            simpa using this
          rw [hstep, h, hfull, applyAtoms_proj π touches hpres ws hall (w.apply t0)]
      · right
        rw [hstep, h, hfull]

set_option maxHeartbeats 2000000 in
/-- Each cycle writes each snapshot region in at most one critical section. -/
theorem cycleAtoms_counts (env : Env) :
    (cycleAtoms env).countP (fun w => w.isMs) ≤ 1 ∧
    (cycleAtoms env).countP (fun w => w.isMpu) ≤ 1 ∧
    (cycleAtoms env).countP (fun w => w.isTmp) ≤ 1 ∧
    (cycleAtoms env).countP (fun w => w.isSys) ≤ 1 ∧
    (cycleAtoms env).countP (fun w => w.isStamp) ≤ 1 := by
  unfold cycleAtoms
  by_cases hex : env.fileExists
  · by_cases hage : env.fileAge > STALE_TIMEOUT
    · simp [hex, hage, List.countP_cons, Atom.isMs, Atom.isMpu, Atom.isTmp,
        Atom.isSys, Atom.isStamp]
    · simp only [hex, if_true, hage, if_false]
      rcases hms : (parse_telem_line (selectLines env.lines.reverse "" "" "").1).ms5611 with _ | m <;>
        rcases hmp : (parse_telem_line (selectLines env.lines.reverse "" "" "").2.1).mpu6050 with _ | p <;>
        rcases htm : (parse_telem_line (selectLines env.lines.reverse "" "" "").2.2).tmp with _ | v <;>
        split_ifs <;>
        simp [hms, hmp, htm, List.countP_cons, List.countP_append, Atom.isMs,
          Atom.isMpu, Atom.isTmp, Atom.isSys, Atom.isStamp]
  · simp [hex, List.countP_cons, Atom.isMs, Atom.isMpu, Atom.isTmp,
      Atom.isSys, Atom.isStamp]

/-- If a push fires at position `j` of a run whose clock instants ascend from
the current `last_gist_push` value `L`, the push instant is at least
`L + GIST_PUSH_INTERVAL`. -/
theorem gistRun_push_ge (tk : Bool) :
    ∀ (ns : List ℚ) (L : ℚ) (j : Nat), List.Chain (· ≤ ·) L ns →
      (gistRun tk ns L)[j]? = some true →
      ∃ nj, ns[j]? = some nj ∧ L + GIST_PUSH_INTERVAL ≤ nj := by
  intro ns
  induction ns with
  | nil => intro L j _ h; simp [gistRun] at h
  | cons n ns ih =>
    intro L j hch hj
    rcases hch with _ | ⟨hLn, hch'⟩
    cases j with
    | zero =>
      have hfire : (gistStep tk L n).1 = true := by simpa [gistRun] using hj
      refine ⟨n, by simp, ?_⟩
      unfold gistStep at hfire
      split_ifs at hfire with h1 h2
      linarith
    | succ j =>
      have hj' : (gistRun tk ns ((gistStep tk L n).2))[j]? = some true := by
        simpa [gistRun] using hj
      have hL' : (gistStep tk L n).2 = L ∨ (gistStep tk L n).2 = n := by
        unfold gistStep
        split_ifs <;> simp
      have hch2 : List.Chain (· ≤ ·) ((gistStep tk L n).2) ns := by
        rcases hL' with h | h <;> rw [h]
        · cases ns with
          | nil => exact List.Chain.nil
          | cons m ms =>
            rcases hch' with _ | ⟨hnm, htail⟩
            exact List.Chain.cons (le_trans hLn hnm) htail
        · exact hch'
      obtain ⟨nj, hnj, hge⟩ := ih ((gistStep tk L n).2) j hch2 hj'
      refine ⟨nj, by simpa using hnj, ?_⟩
      have hLle : L ≤ (gistStep tk L n).2 := by
        rcases hL' with h | h <;> rw [h]
        exact hLn
      linarith

/-- Two pushes of one run over ascending clock instants are at least
`GIST_PUSH_INTERVAL` apart. -/
theorem gistRun_pushes_apart (tk : Bool) :
    ∀ (ns : List ℚ), ns.Chain' (· ≤ ·) → ∀ (L : ℚ) (i j : Nat), i < j →
      (gistRun tk ns L)[i]? = some true →
      (gistRun tk ns L)[j]? = some true →
      ∃ ni nj, ns[i]? = some ni ∧ ns[j]? = some nj ∧
        ni + GIST_PUSH_INTERVAL ≤ nj := by
  intro ns
  induction ns with
  | nil => intro _ L i j _ hi _; simp [gistRun] at hi
  | cons n ns ih =>
    intro hch L i j hij hi hj
    obtain ⟨j', rfl⟩ : ∃ j', j = j' + 1 := ⟨j - 1, by omega⟩
    cases i with
    | zero =>
      have hfire : (gistStep tk L n).1 = true := by simpa [gistRun] using hi
      have hlast : (gistStep tk L n).2 = n := by
        unfold gistStep at hfire ⊢
        split_ifs at hfire ⊢
        all_goals simp_all
      have hj' : (gistRun tk ns n)[j']? = some true := by
        rw [← hlast]
        simpa [gistRun] using hj
      have hchain : List.Chain (· ≤ ·) n ns := hch
      obtain ⟨nj, hnj, hge⟩ := gistRun_push_ge tk ns n j' hchain hj'
      exact ⟨n, nj, by simp, by simpa using hnj, hge⟩
    | succ i =>
      have hch' : ns.Chain' (· ≤ ·) := hch.tail
      have hi' : (gistRun tk ns ((gistStep tk L n).2))[i]? = some true := by
        simpa [gistRun] using hi
      have hj' : (gistRun tk ns ((gistStep tk L n).2))[j']? = some true := by
        simpa [gistRun] using hj
      obtain ⟨ni, nj, h1, h2, h3⟩ := ih hch' _ i j' (by omega) hi' hj'
      exact ⟨ni, nj, by simpa using h1, by simpa using h2, h3⟩

/-- Without a configured token the guard never invokes the network push. -/
theorem gistRun_no_token (ns : List ℚ) (L : ℚ) :
    gistRun false ns L = ns.map (fun _ => false) := by
  induction ns generalizing L with
  | nil => rfl
  | cons n ns ih => simp [gistRun, gistStep, ih]

/-- A sequence of reader iterations. -/
def runCycles (envs : List Env) (t : Telemetry) : Telemetry :=
  envs.foldl (fun a e => cycle e a) t

/-- Every cycle leaves the status in `{live, stale, no_file}`. -/
theorem cycle_status_cases (e : Env) (t : Telemetry) :
    (cycle e t).status = Status.live ∨ (cycle e t).status = Status.stale ∨
      (cycle e t).status = Status.no_file := by
  by_cases hex : e.fileExists
  · by_cases hage : e.fileAge > STALE_TIMEOUT
    · rw [cycle_stale e t hex hage]
      simp
    · rw [cycle_live e t hex hage]
      simp
  · rw [cycle_nofile e t (by simpa using hex)]
    simp

theorem cycle_status_ne_offline (e : Env) (t : Telemetry) :
    (cycle e t).status ≠ Status.offline := by
  rcases cycle_status_cases e t with h | h | h <;> rw [h] <;> simp

theorem runCycles_status (envs : List Env) : ∀ t : Telemetry,
    t.status ≠ Status.offline → (runCycles envs t).status ≠ Status.offline := by
  induction envs with
  | nil => intro t h; exact h
  | cons e es ih =>
    intro t h
    exact ih _ (cycle_status_ne_offline e t)

/-- The timestamp is stamped with the cycle's instant in every branch. -/
theorem cycle_timestamp (e : Env) (t : Telemetry) :
    (cycle e t).timestamp = some e.now := by
  by_cases hex : e.fileExists
  · by_cases hage : e.fileAge > STALE_TIMEOUT
    · rw [cycle_stale e t hex hage]
    · rw [cycle_live e t hex hage]
  · rw [cycle_nofile e t (by simpa using hex)]

theorem parse_tmp_eq (l : String) :
    (parse_telem_line l).tmp = parseTMP (pySplit l) := rfl

theorem parse_gps_eq (l : String) :
    (parse_telem_line l).gps = parseGPS (pySplit l) := rfl

theorem parse_ms_eq (l : String) :
    (parse_telem_line l).ms5611 =
      parseMS5611 (pySplit l) (parseTMP (pySplit l)) (parseGPS (pySplit l)) := rfl

theorem parse_mpu_eq (l : String) :
    (parse_telem_line l).mpu6050 = parseMPU6050 (pySplit l) := rfl

/-- The environment of the `C2` counterexample: a live file whose most recent
`TMP`/`GPS` data and bare pressure marker sit on different lines. -/
def envC2 : Env :=
  { cpu := 1, gpuTemp := 2, fileExists := true, fileAge := 0,
    lines := ["TMP 25 GPS 1 2 300", "MS5611"], now := 7 }

/-- C2, counterexample.  The claim reads the substitution values "possibly
from other lines" of the cycle.  Here the cycle parses `TMP 25` and a GPS
altitude `300` from the `tmp`-selected line, and the pressure-marker-only
line `MS5611` is the pressure-selected line, yet the merged pressure reading
is `{temp = 0, pressure = 1013.25, altitude = 0}`: the per-line parser state
does not carry values across lines. -/
theorem C2_cex_cross_line_values_not_used :
    (selectLines envC2.lines.reverse "" "" "").1 = "MS5611" ∧
    (selectLines envC2.lines.reverse "" "" "").2.2 = "TMP 25 GPS 1 2 300" ∧
    (parse_telem_line "TMP 25 GPS 1 2 300").tmp = some 25 ∧
    (parse_telem_line "TMP 25 GPS 1 2 300").gps = some (1, 2, 300) ∧
    (cycle envC2 initTelemetry).ms5611 ≠ ⟨25, 1013.25, 300⟩ ∧
    (cycle envC2 initTelemetry).ms5611 = ⟨0, 1013.25, 0⟩ := by decide

/-- C2, amended: for a line whose pressure marker is its last token, if the
SAME LINE also yields a `TMP` value and a GPS fix, the parsed pressure
reading is `{temp = TMP value, pressure = 1013.25, altitude = GPS third
coordinate}`.  (The substitution never sees values parsed from other lines
of the cycle: `parse_telem_line` keeps its `data` dict per line.) -/
theorem C2_pressure_marker_only_line (l : String) (idx : Nat) (tv a b c : ℚ)
    (hidx : idx_token (pySplit l) "MS5611" = some idx)
    (hlast : (pySplit l).length = idx + 1)
    (htmp : (parse_telem_line l).tmp = some tv)
    (hgps : (parse_telem_line l).gps = some (a, b, c)) :
    (parse_telem_line l).ms5611 = some ⟨tv, 1013.25, c⟩ := by
  have hguard : ¬ (idx + 3 ≤ (pySplit l).length) := by omega
  rw [parse_tmp_eq] at htmp
  rw [parse_gps_eq] at hgps
  rw [parse_ms_eq]
  unfold parseMS5611
  rw [hidx, htmp, hgps]
  simp [hguard]

theorem C2_witness :
    (parse_telem_line "TMP 25 GPS 1 2 300 MS5611").ms5611 =
      some ⟨25, 1013.25, 300⟩ :=
  C2_pressure_marker_only_line "TMP 25 GPS 1 2 300 MS5611" 6 25 1 2 300
    (by decide) (by decide) (by decide) (by decide)

/-- C3, counterexample.  The claim: the substitution policy applies exactly
when no tokens trail the pressure marker, and with one or two trailing
tokens the field is omitted.  On `MS5611 7` the marker is trailed by one
numeric token, yet the parser still substitutes (the source guard is
`idx + 3 <= len(parts)`, so one trailing token falls into the
marker-at-end branch and `7` is discarded). -/
theorem C3_cex_one_trailing_token :
    idx_token (pySplit "MS5611 7") "MS5611" = some 0 ∧
    (pySplit "MS5611 7").length = 2 ∧
    (parse_telem_line "MS5611 7").ms5611 = some ⟨0, 1013.25, 0⟩ := by decide

/-- C3, amended: the substitution policy (temp from the line's own `TMP` if
parsed, pressure `1013.25`, altitude from the line's GPS third coordinate if
parsed, defaults `0.0`) applies exactly when FEWER THAN TWO tokens trail the
pressure marker; with exactly two trailing tokens the field is silently
omitted (the guard passes and indexing the third token fails). -/
theorem C3_pressure_substitution_trigger (l : String) (idx : Nat)
    (h : idx_token (pySplit l) "MS5611" = some idx) :
    ((pySplit l).length ≤ idx + 2 →
      (parse_telem_line l).ms5611 =
        some ⟨((parse_telem_line l).tmp).getD 0, 1013.25,
          (((parse_telem_line l).gps).getD (0, 0, 0)).2.2⟩) ∧
    ((pySplit l).length = idx + 3 → (parse_telem_line l).ms5611 = none) := by
  constructor
  · intro hlen
    have hguard : ¬ (idx + 3 ≤ (pySplit l).length) := by omega
    rw [parse_tmp_eq, parse_gps_eq, parse_ms_eq]
    unfold parseMS5611
    rw [h]
    simp [hguard]
  · intro hlen
    have hguard : idx + 3 ≤ (pySplit l).length := le_of_eq hlen.symm
    have hnone : (pySplit l)[idx + 3]? = none := by
      rw [List.getElem?_eq_none_iff]
      omega
    rw [parse_ms_eq]
    unfold parseMS5611
    rcases h1 : (pySplit l)[idx + 1]?.bind pyFloat? with _ | a <;>
      rcases h2 : (pySplit l)[idx + 2]?.bind pyFloat? with _ | b <;>
      simp [h, h1, h2, hnone, hguard]

theorem C3_witness :
    (idx_token (pySplit "GPS 8 9 55.5 MS5611>") "MS5611" = some 4) ∧
    (pySplit "GPS 8 9 55.5 MS5611>").length ≤ 4 + 2 ∧
    (parse_telem_line "GPS 8 9 55.5 MS5611>").ms5611 =
      some ⟨0, 1013.25, 55.5⟩ := by
  refine ⟨by decide, by decide, ?_⟩
  have h := (C3_pressure_substitution_trigger "GPS 8 9 55.5 MS5611>" 4
    (by decide)).1 (by decide)
  rw [h]
  decide

theorem bind_float_iff (parts : List String) (n : Nat) (v : ℚ) :
    parts[n]?.bind pyFloat? = some v ↔
      ∃ s, parts[n]? = some s ∧ pyFloat? s = some v := by
  cases h : parts[n]? <;> simp [h]

/-- C4 counterexample: on the line `MS5611` the pressure marker has fewer
trailing tokens than required, yet the parsed field is present (the
substitution reading), not absent as the claim demands for every marker. -/
theorem C4_cex_insufficient_not_absent :
    idx_token (pySplit "MS5611") "MS5611" = some 0 ∧
    (pySplit "MS5611").length = 1 ∧
    (parse_telem_line "MS5611").ms5611 = some ⟨0, 1013.25, 0⟩ := by decide

set_option maxHeartbeats 2000000 in
/-- C4 (amended): at the first occurrence of each marker, a field group is
returned exactly when the required count of following tokens exists and all
of them parse as floats, and then it carries exactly those float values; the
pressure marker is characterized this way only when at least two tokens
trail it — with fewer, the substitution policy produces a present field
instead of an absent one.  (Totality of `parse_telem_line` models "never
raises to its caller".) -/
theorem C4_parser_characterization (l : String) :
    (∀ v : ℚ, (parse_telem_line l).tmp = some v ↔
      "TMP" ∈ pySplit l ∧
      ∃ s, (pySplit l)[(pySplit l).indexOf "TMP" + 1]? = some s ∧
        pyFloat? s = some v) ∧
    (∀ a b c : ℚ, (parse_telem_line l).gps = some (a, b, c) ↔
      "GPS" ∈ pySplit l ∧
      (∃ s, (pySplit l)[(pySplit l).indexOf "GPS" + 1]? = some s ∧ pyFloat? s = some a) ∧
      (∃ s, (pySplit l)[(pySplit l).indexOf "GPS" + 2]? = some s ∧ pyFloat? s = some b) ∧
      (∃ s, (pySplit l)[(pySplit l).indexOf "GPS" + 3]? = some s ∧ pyFloat? s = some c)) ∧
    (∀ g1 g2 g3 a1 a2 a3 : ℚ, (parse_telem_line l).mpu6050 = some ⟨g1, g2, g3, a1, a2, a3⟩ ↔
      "MPU6050" ∈ pySplit l ∧
      (∃ s, (pySplit l)[(pySplit l).indexOf "MPU6050" + 1]? = some s ∧ pyFloat? s = some g1) ∧
      (∃ s, (pySplit l)[(pySplit l).indexOf "MPU6050" + 2]? = some s ∧ pyFloat? s = some g2) ∧
      (∃ s, (pySplit l)[(pySplit l).indexOf "MPU6050" + 3]? = some s ∧ pyFloat? s = some g3) ∧
      (∃ s, (pySplit l)[(pySplit l).indexOf "MPU6050" + 4]? = some s ∧ pyFloat? s = some a1) ∧
      (∃ s, (pySplit l)[(pySplit l).indexOf "MPU6050" + 5]? = some s ∧ pyFloat? s = some a2) ∧
      (∃ s, (pySplit l)[(pySplit l).indexOf "MPU6050" + 6]? = some s ∧ pyFloat? s = some a3)) ∧
    (∀ (t p h : ℚ) (idx : Nat), idx_token (pySplit l) "MS5611" = some idx →
      idx + 3 ≤ (pySplit l).length →
      ((parse_telem_line l).ms5611 = some ⟨t, p, h⟩ ↔
        (∃ s, (pySplit l)[idx + 1]? = some s ∧ pyFloat? s = some t) ∧
        (∃ s, (pySplit l)[idx + 2]? = some s ∧ pyFloat? s = some p) ∧
        (∃ s, (pySplit l)[idx + 3]? = some s ∧ pyFloat? s = some h))) := by
  refine ⟨?_, ?_, ?_, ?_⟩
  · intro v
    rw [parse_tmp_eq]
    unfold parseTMP
    by_cases hm : "TMP" ∈ pySplit l
    · by_cases hlt : (pySplit l).indexOf "TMP" + 1 < (pySplit l).length
      · simp [hm, hlt, bind_float_iff]
      · have hnone : (pySplit l)[(pySplit l).indexOf "TMP" + 1]? = none := by
          rw [List.getElem?_eq_none_iff]
          omega
        simp [hm, hlt, hnone]
    · simp [hm]
  · intro a b c
    rw [parse_gps_eq]
    unfold parseGPS
    by_cases hm : "GPS" ∈ pySplit l
    · by_cases hg : (pySplit l).indexOf "GPS" + 3 ≤ (pySplit l).length
      · rcases h1 : (pySplit l)[(pySplit l).indexOf "GPS" + 1]?.bind pyFloat? with _ | x1 <;>
          rcases h2 : (pySplit l)[(pySplit l).indexOf "GPS" + 2]?.bind pyFloat? with _ | x2 <;>
          rcases h3 : (pySplit l)[(pySplit l).indexOf "GPS" + 3]?.bind pyFloat? with _ | x3 <;>
          simp [hm, hg, h1, h2, h3, ← bind_float_iff]
      · have hnone : (pySplit l)[(pySplit l).indexOf "GPS" + 3]? = none := by
          rw [List.getElem?_eq_none_iff]
          omega
        simp [hm, hg, hnone]
    · simp [hm]
  · intro g1 g2 g3 a1 a2 a3
    rw [parse_mpu_eq]
    unfold parseMPU6050
    by_cases hm : "MPU6050" ∈ pySplit l
    · by_cases hg : (pySplit l).indexOf "MPU6050" + 6 ≤ (pySplit l).length
      · rcases h1 : (pySplit l)[(pySplit l).indexOf "MPU6050" + 1]?.bind pyFloat? with _ | x1 <;>
          rcases h2 : (pySplit l)[(pySplit l).indexOf "MPU6050" + 2]?.bind pyFloat? with _ | x2 <;>
          rcases h3 : (pySplit l)[(pySplit l).indexOf "MPU6050" + 3]?.bind pyFloat? with _ | x3 <;>
          rcases h4 : (pySplit l)[(pySplit l).indexOf "MPU6050" + 4]?.bind pyFloat? with _ | x4 <;>
          rcases h5 : (pySplit l)[(pySplit l).indexOf "MPU6050" + 5]?.bind pyFloat? with _ | x5 <;>
          rcases h6 : (pySplit l)[(pySplit l).indexOf "MPU6050" + 6]?.bind pyFloat? with _ | x6 <;>
          simp [hm, hg, h1, h2, h3, h4, h5, h6, ← bind_float_iff]
      · have hnone : (pySplit l)[(pySplit l).indexOf "MPU6050" + 6]? = none := by
          rw [List.getElem?_eq_none_iff]
          omega
        simp [hm, hg, hnone]
    · simp [hm]
  · intro t p h idx hidx hg
    rw [parse_ms_eq]
    unfold parseMS5611
    rcases h1 : (pySplit l)[idx + 1]?.bind pyFloat? with _ | x1 <;>
      rcases h2 : (pySplit l)[idx + 2]?.bind pyFloat? with _ | x2 <;>
      rcases h3 : (pySplit l)[idx + 3]?.bind pyFloat? with _ | x3 <;>
      simp [hidx, hg, h1, h2, h3, ← bind_float_iff]

theorem C4_witness :
    (parse_telem_line "GPS 4 5 6 MS5611 7 8 9").gps = some (4, 5, 6) ∧
    (parse_telem_line "GPS 4 5 6 MS5611 7 8 9").ms5611 = some ⟨7, 8, 9⟩ := by
  constructor
  · exact ((C4_parser_characterization "GPS 4 5 6 MS5611 7 8 9").2.1 4 5 6).mpr
      ⟨by decide, ⟨"4", by decide, by decide⟩, ⟨"5", by decide, by decide⟩,
        ⟨"6", by decide, by decide⟩⟩
  · exact ((C4_parser_characterization "GPS 4 5 6 MS5611 7 8 9").2.2.2 7 8 9 4
      (by decide) (by decide)).mpr
      ⟨⟨"7", by decide, by decide⟩, ⟨"8", by decide, by decide⟩,
        ⟨"9", by decide, by decide⟩⟩

/-- The environment of the C5 counterexample. -/
def envC5 : Env :=
  { cpu := 1, gpuTemp := 2, fileExists := true, fileAge := 0,
    lines := ["MS5611 1 2 3 TMP 9", "TMPX 5"], now := 7 }

/-- C5, counterexample.  The pressure-selected line also yields `tmp = 9`,
and no other selected line yields a `tmp` field (the `TMP`-selected line
`TMPX 5` contains the marker only inside a longer token and parses to
nothing), yet the cycle leaves `tmp` at its previous value: the loop merges
from each selected line only the field group of the marker that selected it,
not every field the parser produced on it. -/
theorem C5_cex_produced_field_not_merged :
    (selectLines envC5.lines.reverse "" "" "").1 = "MS5611 1 2 3 TMP 9" ∧
    (parse_telem_line "MS5611 1 2 3 TMP 9").tmp = some 9 ∧
    (selectLines envC5.lines.reverse "" "" "").2.2 = "TMPX 5" ∧
    (parse_telem_line "TMPX 5").tmp = none ∧
    initTelemetry.tmp = 0 ∧
    (cycle envC5 initTelemetry).tmp ≠ 9 := by decide

/-- C5 (amended): a live cycle selects, independently for each of the three
markers, the most recent non-blank line containing the marker as a substring
(the early break never changes the selection), and merges from each selected
line ONLY its own marker's field group — other fields produced by the parser
on that line are discarded, and a group whose selected line yields nothing
(or that has no selected line) keeps its previous value. -/
theorem C5_selection_and_merge (env : Env) (t0 : Telemetry)
    (hex : env.fileExists = true) (hage : ¬ env.fileAge > STALE_TIMEOUT) :
    selectLines env.lines.reverse "" "" "" =
      (specMostRecent "MS5611" env.lines.reverse,
       specMostRecent "MPU6050" env.lines.reverse,
       specMostRecent "TMP" env.lines.reverse) ∧
    (cycle env t0).ms5611 =
      (match (parse_telem_line (specMostRecent "MS5611" env.lines.reverse)).ms5611 with
       | some m => m
       | none => t0.ms5611) ∧
    (cycle env t0).mpu6050 =
      (match (parse_telem_line (specMostRecent "MPU6050" env.lines.reverse)).mpu6050 with
       | some m => m
       | none => t0.mpu6050) ∧
    (cycle env t0).tmp =
      (match (parse_telem_line (specMostRecent "TMP" env.lines.reverse)).tmp with
       | some v => v
       | none => t0.tmp) := by
  have hsel : selectLines env.lines.reverse "" "" "" =
      (specMostRecent "MS5611" env.lines.reverse,
       specMostRecent "MPU6050" env.lines.reverse,
       specMostRecent "TMP" env.lines.reverse) := by
    simpa using selectLines_eq env.lines.reverse "" "" ""
  refine ⟨hsel, ?_, ?_, ?_⟩
  · rw [cycle_live env t0 hex hage]
    show mergedMs env t0.ms5611 = _
    simp only [mergedMs, hsel]
    by_cases h : specMostRecent "MS5611" env.lines.reverse = ""
    · rw [h]
      simp [show (parse_telem_line "").ms5611 = none from by decide]
    · simp [h]
  · rw [cycle_live env t0 hex hage]
    show mergedMpu env t0.mpu6050 = _
    simp only [mergedMpu, hsel]
    by_cases h : specMostRecent "MPU6050" env.lines.reverse = ""
    · rw [h]
      simp [show (parse_telem_line "").mpu6050 = none from by decide]
    · simp [h]
  · rw [cycle_live env t0 hex hage]
    show mergedTmp env t0.tmp = _
    simp only [mergedTmp, hsel]
    by_cases h : specMostRecent "TMP" env.lines.reverse = ""
    · rw [h]
      simp [show (parse_telem_line "").tmp = none from by decide]
    · simp [h]

theorem C5_witness :
    envC5.fileExists = true ∧ ¬ envC5.fileAge > STALE_TIMEOUT ∧
    (cycle envC5 initTelemetry).ms5611 =
      (match (parse_telem_line (specMostRecent "MS5611" envC5.lines.reverse)).ms5611 with
       | some m => m
       | none => initTelemetry.ms5611) :=
  ⟨rfl, by decide, (C5_selection_and_merge envC5 initTelemetry rfl (by decide)).2.1⟩

/-- C10: line selection is by substring containment, so a line where the
marker occurs only inside a longer token (`TMP` inside `TMPX`) is still
selected as the most recent `TMP` line; the parser then produces no `tmp`
field from it, so `tmp` is not updated this cycle even though an earlier
line carries a well-formed reading. -/
theorem C10_substring_marker_shadows (pre : List String) (t0 : Telemetry)
    (env : Env) (hl : env.lines = pre ++ ["TMP 7", "TMPX 5"])
    (hex : env.fileExists = true) (hage : ¬ env.fileAge > STALE_TIMEOUT) :
    (selectLines env.lines.reverse "" "" "").2.2 = "TMPX 5" ∧
    (parse_telem_line "TMPX 5").tmp = none ∧
    (parse_telem_line "TMP 7").tmp = some 7 ∧
    (cycle env t0).tmp = t0.tmp := by
  have hrev : env.lines.reverse = "TMPX 5" :: "TMP 7" :: pre.reverse := by
    rw [hl]
    simp
  have hmr : specMostRecent "TMP" env.lines.reverse = "TMPX 5" := by
    rw [hrev, specMostRecent_cons]
    rw [show pyStrip "TMPX 5" = "TMPX 5" from by decide]
    rw [if_pos (by decide)]
  have h5 := C5_selection_and_merge env t0 hex hage
  refine ⟨?_, by decide, by decide, ?_⟩
  · rw [h5.1, hmr]
  · rw [h5.2.2.2, hmr]
    simp [show (parse_telem_line "TMPX 5").tmp = none from by decide]

/-- The environment of the C10 witness. -/
def envC10 : Env :=
  { cpu := 1, gpuTemp := 2, fileExists := true, fileAge := 0,
    lines := ["TMP 7", "TMPX 5"], now := 7 }

theorem C10_witness :
    envC10.lines = [] ++ ["TMP 7", "TMPX 5"] ∧
    envC10.fileExists = true ∧ ¬ envC10.fileAge > STALE_TIMEOUT ∧
    (selectLines envC10.lines.reverse "" "" "").2.2 = "TMPX 5" ∧
    (cycle envC10 initTelemetry).tmp = initTelemetry.tmp :=
  ⟨rfl, rfl, by decide,
    (C10_substring_marker_shadows [] initTelemetry envC10 rfl rfl (by decide)).1,
    (C10_substring_marker_shadows [] initTelemetry envC10 rfl rfl (by decide)).2.2.2⟩

/-- C6: with the file present, a cycle whose file age exceeds the 120 s
threshold marks the snapshot stale, stamps the timestamp and freezes all
three sensor field groups; a cycle back under the threshold marks it live
and resumes merging the selected lines into the field groups. -/
theorem C6_staleness_transition (env : Env) (t0 : Telemetry)
    (hex : env.fileExists = true) :
    (env.fileAge > STALE_TIMEOUT →
      (cycle env t0).status = Status.stale ∧
      (cycle env t0).timestamp = some env.now ∧
      (cycle env t0).ms5611 = t0.ms5611 ∧
      (cycle env t0).mpu6050 = t0.mpu6050 ∧
      (cycle env t0).tmp = t0.tmp) ∧
    (¬ env.fileAge > STALE_TIMEOUT →
      (cycle env t0).status = Status.live ∧
      (cycle env t0).timestamp = some env.now ∧
      (cycle env t0).ms5611 = mergedMs env t0.ms5611 ∧
      (cycle env t0).mpu6050 = mergedMpu env t0.mpu6050 ∧
      (cycle env t0).tmp = mergedTmp env t0.tmp) := by
  constructor
  · intro hage
    rw [cycle_stale env t0 hex hage]
    simp
  · intro hage
    rw [cycle_live env t0 hex hage]
    simp

/-- The environment of the C6 witness: a stale file. -/
def envC6 : Env :=
  { cpu := 3, gpuTemp := 4, fileExists := true, fileAge := 121,
    lines := ["TMP 8"], now := 9 }

theorem C6_witness :
    envC6.fileExists = true ∧ envC6.fileAge > STALE_TIMEOUT ∧
    (cycle envC6 initTelemetry).status = Status.stale ∧
    (cycle envC6 initTelemetry).tmp = initTelemetry.tmp :=
  ⟨rfl, by decide,
    ((C6_staleness_transition envC6 initTelemetry rfl).1 (by decide)).1,
    ((C6_staleness_transition envC6 initTelemetry rfl).1 (by decide)).2.2.2.2⟩

theorem mergedMs_idem (env : Env) (old : MS5611) :
    mergedMs env (mergedMs env old) = mergedMs env old := by
  unfold mergedMs
  by_cases hsel : (selectLines env.lines.reverse "" "" "").1 ≠ ""
  · simp only [if_pos hsel]
    rcases h : (parse_telem_line (selectLines env.lines.reverse "" "" "").1).ms5611 with _ | m <;>
      simp [h, hsel]
  · simp [hsel]

theorem mergedMpu_idem (env : Env) (old : MPU6050) :
    mergedMpu env (mergedMpu env old) = mergedMpu env old := by
  unfold mergedMpu
  by_cases hsel : (selectLines env.lines.reverse "" "" "").2.1 ≠ ""
  · simp only [if_pos hsel]
    rcases h : (parse_telem_line (selectLines env.lines.reverse "" "" "").2.1).mpu6050 with _ | m <;>
      simp [h, hsel]
  · simp [hsel]

theorem mergedTmp_idem (env : Env) (old : ℚ) :
    mergedTmp env (mergedTmp env old) = mergedTmp env old := by
  unfold mergedTmp
  by_cases hsel : (selectLines env.lines.reverse "" "" "").2.2 ≠ ""
  · simp only [if_pos hsel]
    rcases h : (parse_telem_line (selectLines env.lines.reverse "" "" "").2.2).tmp with _ | v <;>
      simp [h, hsel]
  · simp [hsel]

theorem mergedMs_congr (e1 e2 : Env) (h : e2.lines = e1.lines) (old : MS5611) :
    mergedMs e2 old = mergedMs e1 old := by
  unfold mergedMs
  rw [h]

theorem mergedMpu_congr (e1 e2 : Env) (h : e2.lines = e1.lines) (old : MPU6050) :
    mergedMpu e2 old = mergedMpu e1 old := by
  unfold mergedMpu
  rw [h]

theorem mergedTmp_congr (e1 e2 : Env) (h : e2.lines = e1.lines) (old : ℚ) :
    mergedTmp e2 old = mergedTmp e1 old := by
  unfold mergedTmp
  rw [h]

/-- Re-running a cycle with an identical sampled environment is a no-op. -/
theorem cycle_idem (e : Env) (t0 : Telemetry) :
    cycle e (cycle e t0) = cycle e t0 := by
  by_cases hex : e.fileExists = true
  · by_cases hage : e.fileAge > STALE_TIMEOUT
    · have h1 := cycle_stale e t0 hex hage
      have h2 := cycle_stale e (cycle e t0) hex hage
      rw [h2, h1]
    · have h1 := cycle_live e t0 hex hage
      have h2 := cycle_live e (cycle e t0) hex hage
      rw [h2, h1]
      simp [mergedMs_idem, mergedMpu_idem, mergedTmp_idem]
  · have h1 := cycle_nofile e t0 (by simpa using hex)
    have h2 := cycle_nofile e (cycle e t0) (by simpa using hex)
    rw [h2, h1]

/-- C8: two consecutive cycles over the same unchanged file content (same
lines, same existence, same staleness classification) leave every content
field and the status exactly as after the first cycle — no accumulation or
drift; with a fully identical environment the snapshots are equal outright. -/
theorem C8_idempotent_cycles (e1 e2 : Env) (t0 : Telemetry)
    (hl : e2.lines = e1.lines) (hf : e2.fileExists = e1.fileExists)
    (hs : e2.fileAge > STALE_TIMEOUT ↔ e1.fileAge > STALE_TIMEOUT) :
    ((cycle e2 (cycle e1 t0)).ms5611 = (cycle e1 t0).ms5611 ∧
     (cycle e2 (cycle e1 t0)).mpu6050 = (cycle e1 t0).mpu6050 ∧
     (cycle e2 (cycle e1 t0)).tmp = (cycle e1 t0).tmp ∧
     (cycle e2 (cycle e1 t0)).status = (cycle e1 t0).status) ∧
    (e2 = e1 → cycle e2 (cycle e1 t0) = cycle e1 t0) := by
  refine ⟨?_, fun h => by rw [h]; exact cycle_idem e1 t0⟩
  by_cases hex : e1.fileExists = true
  · by_cases hage : e1.fileAge > STALE_TIMEOUT
    · have h1 := cycle_stale e1 t0 hex hage
      have h2 := cycle_stale e2 (cycle e1 t0) (hf.trans hex) (hs.mpr hage)
      rw [h2, h1]
      simp
    · have h1 := cycle_live e1 t0 hex hage
      have h2 := cycle_live e2 (cycle e1 t0) (hf.trans hex)
        (fun hc => hage (hs.mp hc))
      rw [h2, h1]
      simp [mergedMs_congr e1 e2 hl, mergedMpu_congr e1 e2 hl,
        mergedTmp_congr e1 e2 hl, mergedMs_idem, mergedMpu_idem, mergedTmp_idem]
  · have h1 := cycle_nofile e1 t0 (by simpa using hex)
    have h2 := cycle_nofile e2 (cycle e1 t0) (by rw [hf]; simpa using hex)
    rw [h2, h1]
    simp

theorem C8_witness :
    envC5.lines = envC5.lines ∧
    cycle envC5 (cycle envC5 initTelemetry) = cycle envC5 initTelemetry :=
  ⟨rfl, (C8_idempotent_cycles envC5 envC5 initTelemetry rfl rfl Iff.rfl).2 rfl⟩

/-- C9: every cycle (in particular the first completed one) sets the status
to one of `live`, `stale`, `no_file` — the initial `offline` never reappears
after any further sequence of cycles — and rewrites status and timestamp
together: the timestamp is freshly stamped with the cycle's instant and the
status is freshly computed from the environment alone, independent of the
previous snapshot. -/
theorem C9_status_invariant (e : Env) (t t' : Telemetry) (envs : List Env) :
    ((cycle e t).status = Status.live ∨ (cycle e t).status = Status.stale ∨
      (cycle e t).status = Status.no_file) ∧
    (cycle e t).status ≠ Status.offline ∧
    (cycle e t).timestamp = some e.now ∧
    (cycle e t).status = (cycle e t').status ∧
    (runCycles envs (cycle e t)).status ≠ Status.offline := by
  refine ⟨cycle_status_cases e t, cycle_status_ne_offline e t, cycle_timestamp e t,
    ?_, runCycles_status envs _ (cycle_status_ne_offline e t)⟩
  by_cases hex : e.fileExists = true
  · by_cases hage : e.fileAge > STALE_TIMEOUT
    · rw [cycle_stale e t hex hage, cycle_stale e t' hex hage]
    · rw [cycle_live e t hex hage, cycle_live e t' hex hage]
  · rw [cycle_nofile e t (by simpa using hex), cycle_nofile e t' (by simpa using hex)]

/-- The environment of the C1 counterexample: one cycle that updates both
the pressure group and the ambient temperature. -/
def envC1 : Env :=
  { cpu := 1, gpuTemp := 2, fileExists := true, fileAge := 0,
    lines := ["MS5611 10 900 100 TMP 25"], now := 5 }

/-- C1, counterexample.  The cycle performs four separate lock-protected
writes (system; status+timestamp; ms5611; tmp).  A reader copying the
snapshot under the lock after the third write observes a state that is
neither the pre-cycle snapshot (status and ms5611 already new) nor the
post-cycle snapshot (tmp still old): the cycle's merge is split over several
critical sections, so reads can be torn across field groups. -/
theorem C1_cex_torn_read :
    (cycleAtoms envC1).length = 4 ∧
    observeAfter envC1 initTelemetry 3 ≠ initTelemetry ∧
    observeAfter envC1 initTelemetry 3 ≠ cycle envC1 initTelemetry ∧
    observeAfter envC1 initTelemetry 4 = cycle envC1 initTelemetry := by decide

/-- C1 (amended): a reader that copies the snapshot between the
lock-protected writes of one cycle may observe a mix of field groups, but
each individual field group it observes is either that group's fully-old or
fully-new value, and status and timestamp are observed consistently as a
pair (they are written in the same critical section); running all writes of
the cycle yields exactly the sequential cycle result. -/
theorem C1_per_group_consistency (env : Env) (t0 : Telemetry) (k : Nat) :
    observeAfter env t0 (cycleAtoms env).length = cycle env t0 ∧
    ((observeAfter env t0 k).ms5611 = t0.ms5611 ∨
      (observeAfter env t0 k).ms5611 = (cycle env t0).ms5611) ∧
    ((observeAfter env t0 k).mpu6050 = t0.mpu6050 ∨
      (observeAfter env t0 k).mpu6050 = (cycle env t0).mpu6050) ∧
    ((observeAfter env t0 k).tmp = t0.tmp ∨
      (observeAfter env t0 k).tmp = (cycle env t0).tmp) ∧
    ((observeAfter env t0 k).system = t0.system ∨
      (observeAfter env t0 k).system = (cycle env t0).system) ∧
    (((observeAfter env t0 k).status, (observeAfter env t0 k).timestamp) =
        (t0.status, t0.timestamp) ∨
      ((observeAfter env t0 k).status, (observeAfter env t0 k).timestamp) =
        ((cycle env t0).status, (cycle env t0).timestamp)) := by
  obtain ⟨c1, c2, c3, c4, c5⟩ := cycleAtoms_counts env
  have hfull : applyAtoms (cycleAtoms env) t0 = cycle env t0 := cycle_eq_atoms env t0
  have pres_ms : ∀ w t, Atom.isMs w = false → (Atom.apply w t).ms5611 = t.ms5611 := by
    intro w t hw
    cases w <;> simp_all [Atom.apply, Atom.isMs]
  have pres_mpu : ∀ w t, Atom.isMpu w = false → (Atom.apply w t).mpu6050 = t.mpu6050 := by
    intro w t hw
    cases w <;> simp_all [Atom.apply, Atom.isMpu]
  have pres_tmp : ∀ w t, Atom.isTmp w = false → (Atom.apply w t).tmp = t.tmp := by
    intro w t hw
    cases w <;> simp_all [Atom.apply, Atom.isTmp]
  have pres_sys : ∀ w t, Atom.isSys w = false → (Atom.apply w t).system = t.system := by
    intro w t hw
    cases w <;> simp_all [Atom.apply, Atom.isSys]
  have pres_st : ∀ w t, Atom.isStamp w = false →
      ((Atom.apply w t).status, (Atom.apply w t).timestamp) = (t.status, t.timestamp) := by
    intro w t hw
    cases w <;> simp_all [Atom.apply, Atom.isStamp]
  refine ⟨?_, ?_, ?_, ?_, ?_, ?_⟩
  · show applyAtoms ((cycleAtoms env).take (cycleAtoms env).length) t0 = _
    rw [List.take_length, hfull]
  · rcases observe_proj (fun t => t.ms5611) Atom.isMs pres_ms (cycleAtoms env) c1 t0 k
      with h | h
    · exact Or.inl h
    · rw [hfull] at h
      exact Or.inr h
  · rcases observe_proj (fun t => t.mpu6050) Atom.isMpu pres_mpu (cycleAtoms env) c2 t0 k
      with h | h
    · exact Or.inl h
    · rw [hfull] at h
      exact Or.inr h
  · rcases observe_proj (fun t => t.tmp) Atom.isTmp pres_tmp (cycleAtoms env) c3 t0 k
      with h | h
    · exact Or.inl h
    · rw [hfull] at h
      exact Or.inr h
  · rcases observe_proj (fun t => t.system) Atom.isSys pres_sys (cycleAtoms env) c4 t0 k
      with h | h
    · exact Or.inl h
    · rw [hfull] at h
      exact Or.inr h
  · rcases observe_proj (fun t => (t.status, t.timestamp)) Atom.isStamp pres_st
      (cycleAtoms env) c5 t0 k with h | h
    · exact Or.inl h
    · rw [hfull] at h
      exact Or.inr h

/-- C7: over monotone wall-clock instants, any two cycles that both invoke
the network push are at least `GIST_PUSH_INTERVAL` (5 s) apart — hence at
most one push falls in any half-open 5-second window, however many snapshot
updates occur (e.g. at a 1 s ingestion cadence) — and with no token
configured the guard never invokes the network call at all. -/
theorem C7_relay_rate_limit (ns : List ℚ) (L : ℚ) :
    (ns.Chain' (· ≤ ·) → ∀ i j : Nat, i < j →
      (gistRun true ns L)[i]? = some true →
      (gistRun true ns L)[j]? = some true →
      ∃ ni nj, ns[i]? = some ni ∧ ns[j]? = some nj ∧
        ni + GIST_PUSH_INTERVAL ≤ nj) ∧
    gistRun false ns L = ns.map (fun _ => false) :=
  ⟨fun hch i j hij => gistRun_pushes_apart true ns hch L i j hij,
   gistRun_no_token ns L⟩

theorem C7_witness :
    ([0, 1, 2, 3, 4, 5] : List ℚ).Chain' (· ≤ ·) ∧
    (gistRun true [0, 1, 2, 3, 4, 5] (-10))[0]? = some true ∧
    (gistRun true [0, 1, 2, 3, 4, 5] (-10))[5]? = some true ∧
    (∃ ni nj, ([0, 1, 2, 3, 4, 5] : List ℚ)[0]? = some ni ∧
      ([0, 1, 2, 3, 4, 5] : List ℚ)[5]? = some nj ∧
      ni + GIST_PUSH_INTERVAL ≤ nj) ∧
    gistRun false [0, 1, 2, 3, 4, 5] (-10) =
      [false, false, false, false, false, false] := by
  refine ⟨by norm_num [List.chain'_cons], by decide, by decide, ?_, ?_⟩
  · exact (C7_relay_rate_limit [0, 1, 2, 3, 4, 5] (-10)).1
      (by norm_num [List.chain'_cons]) 0 5
      (by decide) (by decide) (by decide)
  · rw [(C7_relay_rate_limit [0, 1, 2, 3, 4, 5] (-10)).2]
    decide

end TelemetryPipeline
